import Mathlib

/-!
Verification of the CampusFlow data-access and notification layer.

The definitions below are a shallow embedding of the repository's SQL schema
with its row-level-security (RLS) policies and of the client components that
perform CRUD calls against it (`NotificationCenter.tsx`, `ScheduleViewer.tsx`,
`Dashboard.tsx`, `FeedbackSystem`).  UUIDs and timestamps are embedded as
`Nat`; `TEXT` columns as `String`; a table is a `List` of row structures.
A SQL `UPDATE`/`DELETE` whose `WHERE` clause (including the RLS policy)
matches zero rows succeeds and affects nothing, so the embedded mutation
primitives return no error; the error channel is kept explicit so that the
presence or absence of a failure is part of every statement.
-/

namespace CampusFlow

/-- Row of `public.schedules` (migration lines 32-43): personal calendar
entry owned via `user_id`. -/
structure ScheduleRow where
  id : Nat
  user_id : Nat
  course : String
  time : String
  location : String
  instructor : String
  type : String
  day_of_week : String
  deriving Repr, DecidableEq

/-- Row of `public.notifications` (migration lines 87-95); `read` has
`DEFAULT false`. -/
structure NotificationRow where
  id : Nat
  user_id : Nat
  title : String
  message : String
  type : String
  read : Bool
  created_at : Nat
  deriving Repr, DecidableEq

/-- Row of `public.feedback` (migration lines 61-73). -/
structure FeedbackRow where
  id : Nat
  user_id : Nat
  feedback_type : String
  subject : String
  description : String
  priority : String
  rating : Option Nat
  status : String
  response : Option String
  created_at : Nat
  deriving Repr, DecidableEq

/-- Row of `public.appointments` (migration lines 46-58). -/
structure AppointmentRow where
  id : Nat
  user_id : Nat
  service_type : String
  appointment_date : String
  appointment_time : String
  status : String
  deriving Repr, DecidableEq

/-- Row of `public.timetable` (migration lines 111-122); the reserved word
`class` is embedded as `class_col`. -/
structure TimetableRow where
  id : Nat
  lecturer_id : Nat
  day_of_week : String
  start_time : String
  end_time : String
  subject : String
  class_col : String
  room : String
  deriving Repr, DecidableEq

/-- Row of `public.updates` (migration lines 174-181); `target_class` is
nullable. -/
structure UpdateRow where
  id : Nat
  lecturer_id : Nat
  title : String
  content : String
  target_class : Option String
  created_at : Nat
  deriving Repr, DecidableEq

/-- Row of `public.profiles` (migration lines 2-13). -/
structure Profile where
  id : Nat
  full_name : String
  email : String
  department : Option String
  role : String
  deriving Repr, DecidableEq

/-! RLS policies, each a direct transcription of the `USING` clause of the
corresponding `CREATE POLICY` statement; `uid` is `auth.uid()`. -/

/-- Policy "Users can view their own schedules" (migration line 198). -/
def schedulesSelectPolicy (uid : Nat) (r : ScheduleRow) : Bool :=
  uid == r.user_id

/-- Policy "Users can view their own appointments" (migration line 204). -/
def appointmentsSelectPolicy (uid : Nat) (r : AppointmentRow) : Bool :=
  uid == r.user_id

/-- Policy "Users can view their own feedback" (migration line 210). -/
def feedbackSelectPolicy (uid : Nat) (r : FeedbackRow) : Bool :=
  uid == r.user_id

/-- Policy "Users can view their own notifications" (migration line 222). -/
def notificationsSelectPolicy (uid : Nat) (r : NotificationRow) : Bool :=
  uid == r.user_id

/-- Policy "Users can update their own notifications" (migration line 224). -/
def notificationsUpdatePolicy (uid : Nat) (r : NotificationRow) : Bool :=
  uid == r.user_id

/-- Policy "Lecturers can manage their own timetable" (migration lines
233-236): `FOR ALL USING (auth.uid() = lecturer_id)` - the sole policy on
`public.timetable`, so it also governs SELECT. -/
def timetablePolicy (uid : Nat) (r : TimetableRow) : Bool :=
  uid == r.lecturer_id

/-- Policy "Lecturers can manage their own updates" (migration lines
258-261): `FOR ALL USING (auth.uid() = lecturer_id)` - the sole policy on
`public.updates`, so it also governs SELECT. -/
def updatesPolicy (uid : Nat) (r : UpdateRow) : Bool :=
  uid == r.lecturer_id

/-- Error taxonomy of spec section 7, used to state which failures an
operation can produce. -/
inductive StoreError where
  | validation
  | authorization
  | notFound
  | transientStore
  deriving Repr, DecidableEq

/-! Notification operations (`NotificationCenter.tsx`). -/

/-- Store effect of `markAsRead` (NotificationCenter.tsx lines 84-104): an
UPDATE setting `read = true` filtered by `.eq('id', notificationId)` at the
request level and by the RLS update policy server-side. -/
def markAsReadUpdate (uid nid : Nat) (store : List NotificationRow) :
    List NotificationRow :=
  store.map fun r =>
    if r.id == nid && notificationsUpdatePolicy uid r then
      { r with read := true }
    else r

/-- Full result of `markAsRead`: the new store and the error outcome.  An
UPDATE whose filters match zero rows succeeds (SQL semantics; the client
only throws when the store reports an error), so the error is `none`. -/
def markAsRead (uid nid : Nat) (store : List NotificationRow) :
    List NotificationRow × Option StoreError :=
  (markAsReadUpdate uid nid store, none)

/-- Local-state effect of `markAsRead` (NotificationCenter.tsx lines
93-100): map over the displayed list setting `read := true` on the matching
id. -/
def markAsReadLocal (nid : Nat) (view : List NotificationRow) :
    List NotificationRow :=
  view.map fun n => if n.id == nid then { n with read := true } else n

/-- The ids the component considers unread, computed from the displayed
list (NotificationCenter.tsx line 108). -/
def unreadIdsOf (view : List NotificationRow) : List Nat :=
  (view.filter fun n => !n.read).map fun n => n.id

/-- Result of `markAllAsRead`: new store, new displayed list, whether an
UPDATE was issued, and the toast shown. -/
structure MarkAllResult where
  store : List NotificationRow
  view : List NotificationRow
  wroteStore : Bool
  toast : Option String
  deriving Repr, DecidableEq

/-- `markAllAsRead` (NotificationCenter.tsx lines 106-135): collect the
unread ids of the displayed list; if none, return before issuing any
request or toast; otherwise UPDATE `read = true` on those ids (RLS-scoped),
mark the whole displayed list read, and toast success. -/
def markAllAsRead (uid : Nat) (view store : List NotificationRow) :
    MarkAllResult :=
  let unreadIds := unreadIdsOf view
  if unreadIds.isEmpty then
    { store := store, view := view, wroteStore := false, toast := none }
  else
    { store := store.map fun r =>
        if unreadIds.contains r.id && notificationsUpdatePolicy uid r then
          { r with read := true }
        else r
      view := view.map fun n => { n with read := true }
      wroteStore := true
      toast := some "All notifications marked as read" }

/-- Unread count over the whole store for one owner: the number of rows
with `read = false` at query time (spec section 4.4). -/
def unreadCountStore (uid : Nat) (store : List NotificationRow) : Nat :=
  (store.filter fun r => r.user_id == uid && !r.read).length

/-- Unread count the component displays, over the fetched list only
(NotificationCenter.tsx line 185). -/
def unreadCountView (view : List NotificationRow) : Nat :=
  (view.filter fun n => !n.read).length

/-! List operations.  A supabase query is embedded as: RLS filter (applied
by the store before rows leave it), then the client's `.eq` filters, then
`.order`, then `.limit`.  `.order` is embedded as a stable insertion sort,
which agrees with any stable sort under a total preorder key. -/

/-- `fetchSchedules` (ScheduleViewer.tsx lines 60-86): select own rows
(`.eq('user_id', user.id)`), ordered by `time` ascending. -/
def fetchSchedules (uid : Nat) (store : List ScheduleRow) : List ScheduleRow :=
  List.insertionSort (fun a b => a.time ≤ b.time)
    ((store.filter (schedulesSelectPolicy uid)).filter fun r => r.user_id == uid)

/-- `fetchFeedback` (FeedbackSystem component): select own rows
(`.eq('user_id', user.id)`), ordered by `created_at` descending. -/
def fetchFeedback (uid : Nat) (store : List FeedbackRow) : List FeedbackRow :=
  List.insertionSort (fun a b => b.created_at ≤ a.created_at)
    ((store.filter (feedbackSelectPolicy uid)).filter fun r => r.user_id == uid)

/-- `fetchNotifications` (NotificationCenter.tsx lines 52-82): select own
rows, ordered by `created_at` descending, truncated by `.limit(20)`. -/
def fetchNotifications (uid : Nat) (store : List NotificationRow) :
    List NotificationRow :=
  (List.insertionSort (fun a b => b.created_at ≤ a.created_at)
    ((store.filter (notificationsSelectPolicy uid)).filter
      fun r => r.user_id == uid)).take 20

/-- Rows of `public.appointments` visible to a caller: the SELECT under the
RLS policy of migration line 204 (no client-side lister for appointments
appears in the sources, so only the store-level visibility is embedded). -/
def appointmentsVisible (uid : Nat) (store : List AppointmentRow) :
    List AppointmentRow :=
  store.filter (appointmentsSelectPolicy uid)

/-- Rows of `public.timetable` the store lets a caller SELECT under its
sole RLS policy (migration lines 233-236). -/
def visibleTimetable (uid : Nat) (store : List TimetableRow) :
    List TimetableRow :=
  store.filter (timetablePolicy uid)

/-- Rows of `public.updates` the store lets a caller SELECT under its sole
RLS policy (migration lines 258-261). -/
def visibleUpdates (uid : Nat) (store : List UpdateRow) : List UpdateRow :=
  store.filter (updatesPolicy uid)

/-- Client-side filter of `fetchUpdates` (Dashboard.tsx lines 237-248):
`target_class.eq.dept, target_class.is.null, target_class.eq.all`. -/
def updatesClientFilter (dept : String) (r : UpdateRow) : Bool :=
  r.target_class == some dept || r.target_class == none ||
    r.target_class == some "all"

/-- `fetchUpdates` as executed for a student with department `dept`: the
client `or` filter applied to the rows the store's RLS lets through. -/
def fetchUpdates (uid : Nat) (dept : String) (store : List UpdateRow) :
    List UpdateRow :=
  (visibleUpdates uid store).filter (updatesClientFilter dept)

/-- Read authorization on `public.timetable` as the claim states it:
the owning lecturer, plus any caller whose profile department matches the
row's class.  Kept separate from `timetablePolicy` (the policy actually in
the migration) so the two can be compared. -/
def claimTimetableRead (p : Profile) (r : TimetableRow) : Bool :=
  p.id == r.lecturer_id || p.department == some r.class_col

/-! Change feed (NotificationCenter.tsx lines 27-50). -/

/-- Row predicate of the realtime channel subscription: its configuration
names only `event: INSERT, schema: public, table: notifications` - it
carries no `filter:` entry and so matches every inserted row. -/
def notificationsChannelMatches (_ : NotificationRow) : Bool :=
  true

/-- Insert events the subscription delivers to the handler, out of a list
of rows inserted after subscription time, in insertion order. -/
def deliveredInsertEvents (inserts : List NotificationRow) :
    List NotificationRow :=
  inserts.filter notificationsChannelMatches

/-- The subscription handler (NotificationCenter.tsx lines 40-43): prepend
the payload row to the displayed list, with no ownership check. -/
def onInsertPayload (prev : List NotificationRow) (payload : NotificationRow) :
    List NotificationRow :=
  payload :: prev

/-! Operation language over the notifications table, for the monotonicity
invariant: the reachable mutations are row insertion (the `read` column has
`DEFAULT false` and the INSERT policy checks only ownership), `markAsRead`,
and the UPDATE issued by `markAllAsRead`. -/

/-- Fields supplied when inserting a notification; `read` is not among
them, it is set by the column default. -/
structure NotificationInsert where
  id : Nat
  user_id : Nat
  title : String
  message : String
  type : String
  created_at : Nat
  deriving Repr, DecidableEq

/-- The row an insert produces: `read` starts at the column default
`false` (migration line 93). -/
def insertedRow (f : NotificationInsert) : NotificationRow :=
  { id := f.id, user_id := f.user_id, title := f.title, message := f.message
    type := f.type, read := false, created_at := f.created_at }

/-- The operations that touch the notifications table. -/
inductive NotifOp where
  | insertOp (f : NotificationInsert)
  | markReadOp (uid nid : Nat)
  | markAllReadOp (uid : Nat) (ids : List Nat)
  deriving Repr, DecidableEq

/-- One step of the notifications store under an operation. -/
def notifStep : NotifOp → List NotificationRow → List NotificationRow
  | .insertOp f, s => insertedRow f :: s
  | .markReadOp uid nid, s => markAsReadUpdate uid nid s
  | .markAllReadOp uid ids, s =>
      s.map fun r =>
        if ids.contains r.id && notificationsUpdatePolicy uid r then
          { r with read := true }
        else r

/-! Schedule mutations (ScheduleViewer.tsx). -/

/-- The editable columns of a schedule row. -/
structure ScheduleFields where
  course : String
  time : String
  location : String
  instructor : String
  type : String
  day_of_week : String
  deriving Repr, DecidableEq

/-- `handleEditSchedule` (ScheduleViewer.tsx lines 128-143): UPDATE the six
editable columns filtered by `.eq('id', ...)` and `.eq('user_id', user.id)`
in the request itself; the RLS update policy would repeat the same owner
check, so it is not needed here. -/
def handleEditSchedule (uid sid : Nat) (f : ScheduleFields)
    (store : List ScheduleRow) : List ScheduleRow :=
  store.map fun r =>
    if r.id == sid && r.user_id == uid then
      { r with course := f.course, time := f.time, location := f.location
               instructor := f.instructor, type := f.type
               day_of_week := f.day_of_week }
    else r

/-- `handleDeleteSchedule` (ScheduleViewer.tsx lines 167-197): DELETE
filtered by `.eq('id', ...)` and `.eq('user_id', user.id)`. -/
def handleDeleteSchedule (uid sid : Nat) (store : List ScheduleRow) :
    List ScheduleRow :=
  store.filter fun r => !(r.id == sid && r.user_id == uid)

/-! Schedule Merge View (`getDisplayData`, second component of
NotificationCenter.tsx, lines 471-516). -/

/-- Source tag of a merged entry; the source stores it in a field named
`type` with values `personal` and `lecturer`. -/
inductive SourceTag where
  | personal
  | lecturer
  deriving Repr, DecidableEq

/-- One entry of the merged display sequence. -/
structure DisplayItem where
  id : Nat
  tag : SourceTag
  displayTime : String
  displaySubject : String
  displayLocation : String
  displayInstructor : String
  deriving Repr, DecidableEq

/-- Projection of a personal schedule row (getDisplayData, `personal`
branch). -/
def toPersonalItem (s : ScheduleRow) : DisplayItem :=
  { id := s.id, tag := .personal, displayTime := s.time
    displaySubject := s.course, displayLocation := s.location
    displayInstructor := s.instructor }

/-- Projection of a timetable row (getDisplayData, `lecturer` branch);
`displayTime` is the string `start_time - end_time`. -/
def toLecturerItem (t : TimetableRow) : DisplayItem :=
  { id := t.id, tag := .lecturer
    displayTime := t.start_time ++ " - " ++ t.end_time
    displaySubject := t.subject, displayLocation := t.room
    displayInstructor := "Lecturer" }

/-- Comparison used by the merge: the display time strings, embedding the
`localeCompare` comparator as the lexicographic order on `String`. -/
def timeLE (a b : DisplayItem) : Prop :=
  a.displayTime ≤ b.displayTime

instance : DecidableRel timeLE := fun a b =>
  inferInstanceAs (Decidable (a.displayTime ≤ b.displayTime))

instance : IsTotal DisplayItem timeLE :=
  ⟨fun a b => le_total a.displayTime b.displayTime⟩

instance : IsTrans DisplayItem timeLE :=
  ⟨fun _ _ _ hab hbc => le_trans hab hbc⟩

/-- Day filter on personal schedules (lines 462-464). -/
def currentPersonalSchedules (day : String) (ss : List ScheduleRow) :
    List ScheduleRow :=
  ss.filter fun s => s.day_of_week.toLower == day

/-- Day filter on the timetable (lines 466-468). -/
def currentTimetable (day : String) (ts : List TimetableRow) :
    List TimetableRow :=
  ts.filter fun t => t.day_of_week.toLower == day

/-- `getDisplayData` in mode `all` (lines 491-513): project both day-filtered
sources, concatenate personal before lecturer entries, and sort by the
display time string.  `Array.prototype.sort` is stable and a stable sort
under a total preorder comparator is extensionally unique, so it is
embedded as a stable insertion sort. -/
def getDisplayData (day : String) (ss : List ScheduleRow)
    (ts : List TimetableRow) : List DisplayItem :=
  List.insertionSort timeLE
    ((currentPersonalSchedules day ss).map toPersonalItem ++
      (currentTimetable day ts).map toLecturerItem)

/-! Concrete fixtures used by counterexamples and witnesses. -/

/-- A notifications store holding 21 unread rows, all owned by caller 1,
with distinct creation times. -/
def cxNotifStore : List NotificationRow :=
  (List.range 21).map fun i =>
    { id := i, user_id := 1, title := "t", message := "m", type := "general"
      read := false, created_at := i }

/-- The oldest row of `cxNotifStore`. -/
def cxOldNotif : NotificationRow :=
  { id := 0, user_id := 1, title := "t", message := "m", type := "general"
    read := false, created_at := 0 }

/-- The newest row of `cxNotifStore`. -/
def cxNewNotif : NotificationRow :=
  { id := 20, user_id := 1, title := "t", message := "m", type := "general"
    read := false, created_at := 20 }

/-- An unread notification owned by caller 2. -/
def foreignNotif : NotificationRow :=
  { id := 5, user_id := 2, title := "t", message := "m", type := "general"
    read := false, created_at := 0 }

/-- An unread notification owned by caller 1. -/
def ownNotif : NotificationRow :=
  { id := 9, user_id := 1, title := "t", message := "m", type := "general"
    read := false, created_at := 3 }

/-- An already-read notification owned by caller 1. -/
def readNotif : NotificationRow :=
  { id := 4, user_id := 1, title := "t", message := "m", type := "general"
    read := true, created_at := 2 }

/-- A schedule row owned by caller 1. -/
def schedA : ScheduleRow :=
  { id := 1, user_id := 1, course := "CS101", time := "09:00 - 10:00"
    location := "R2", instructor := "Dr. Smith", type := "Lecture"
    day_of_week := "monday" }

/-- A schedule row owned by caller 2. -/
def foreignSched : ScheduleRow :=
  { id := 3, user_id := 2, course := "MA200", time := "10:00 - 11:00"
    location := "R5", instructor := "Dr. Jones", type := "Lecture"
    day_of_week := "monday" }

/-- A timetable row owned by lecturer 7, addressed to class CS-Y2. -/
def ttCS : TimetableRow :=
  { id := 11, lecturer_id := 7, day_of_week := "monday"
    start_time := "09:00", end_time := "10:00", subject := "Algorithms"
    class_col := "CS-Y2", room := "R1" }

/-- A student profile in department CS-Y2, distinct from lecturer 7. -/
def studentCS : Profile :=
  { id := 3, full_name := "Student", email := "s@campus"
    department := some "CS-Y2", role := "student" }

/-- A broadcast announcement (null `target_class`) by lecturer 7. -/
def updAll : UpdateRow :=
  { id := 21, lecturer_id := 7, title := "Welcome", content := "hello"
    target_class := none, created_at := 0 }

/-! Theorems. -/

/-- The per-row transform of `markAsReadUpdate` is idempotent: the update
leaves `id` and `user_id` unchanged, so the row matches the same filters
again and `read := true` is absorbing. -/
theorem markAsReadUpdate_idem (uid nid : Nat) (store : List NotificationRow) :
    markAsReadUpdate uid nid (markAsReadUpdate uid nid store) =
      markAsReadUpdate uid nid store := by
  unfold markAsReadUpdate
  rw [List.map_map]
  apply List.map_congr_left
  intro r _
  by_cases h : (r.id == nid && notificationsUpdatePolicy uid r) = true
  · simp only [Function.comp_apply, if_pos h]
    have h' : (({ r with read := true } : NotificationRow).id == nid &&
        notificationsUpdatePolicy uid ({ r with read := true })) = true := h
    rw [if_pos h']
  · simp only [Function.comp_apply, if_neg h, if_neg h]

/-- C4: `markRead` is idempotent.  Calling it twice on the same id gives
the same store (and the same displayed list) as calling it once, and the
second call reports no error. -/
theorem markAsRead_idempotent (uid nid : Nat)
    (store view : List NotificationRow) :
    markAsRead uid nid (markAsRead uid nid store).1 =
      markAsRead uid nid store ∧
    (markAsRead uid nid (markAsRead uid nid store).1).2 = none ∧
    markAsReadLocal nid (markAsReadLocal nid view) =
      markAsReadLocal nid view := by
  refine ⟨?_, rfl, ?_⟩
  · show (markAsReadUpdate uid nid (markAsReadUpdate uid nid store),
      (none : Option StoreError)) = (markAsReadUpdate uid nid store, none)
    rw [markAsReadUpdate_idem]
  · unfold markAsReadLocal
    rw [List.map_map]
    apply List.map_congr_left
    intro n _
    by_cases h : (n.id == nid) = true
    · simp only [Function.comp_apply, if_pos h]
    · simp only [Function.comp_apply, if_neg h, if_neg h]

/-- C5 counterexample: calling `markRead` as caller 1 on id 5, which is
owned by caller 2, does NOT fail with `NotFoundError` (the zero-row UPDATE
succeeds silently), although the row is indeed left unchanged. -/
theorem markAsRead_foreign_counterexample :
    (markAsRead 1 5 [foreignNotif]).2 ≠ some StoreError.notFound ∧
    (markAsRead 1 5 [foreignNotif]).1 = [foreignNotif] := by
  decide

/-- C5 amended: `markRead` on an id that the caller does not own matches
zero rows, leaves the store unchanged, and completes without any error;
in particular no `NotFoundError` is produced and the caller cannot tell
whether the row exists. -/
theorem markAsRead_foreign_noop (uid nid : Nat)
    (store : List NotificationRow)
    (h : ∀ r ∈ store, r.id = nid → r.user_id ≠ uid) :
    markAsRead uid nid store = (store, none) := by
  show (markAsReadUpdate uid nid store, (none : Option StoreError)) = (store, none)
  have hupd : markAsReadUpdate uid nid store = store := by
    unfold markAsReadUpdate
    conv_rhs => rw [← List.map_id store]
    apply List.map_congr_left
    intro r hr
    have hcond : (r.id == nid && notificationsUpdatePolicy uid r) = false := by
      by_cases hid : r.id = nid
      · have : r.user_id ≠ uid := h r hr hid
        simp [notificationsUpdatePolicy, hid, Ne.symm this]
      · simp [hid]
    rw [hcond]
    rfl
  rw [hupd]

/-- Closed instance of `markAsRead_foreign_noop` at a concrete store whose
only row with id 5 belongs to caller 2, taken by caller 1. -/
theorem markAsRead_foreign_noop_witness :
    markAsRead 1 5 [foreignNotif, ownNotif] = ([foreignNotif, ownNotif], none) :=
  markAsRead_foreign_noop 1 5 [foreignNotif, ownNotif] (by decide)

/-- C9: when the displayed list holds no unread notification,
`markAllAsRead` returns before issuing any UPDATE: the store and displayed
list are unchanged, no write is issued, and no toast (success or error) is
produced. -/
theorem markAllAsRead_noop_when_no_unread (uid : Nat)
    (view store : List NotificationRow)
    (h : unreadCountView view = 0) :
    markAllAsRead uid view store =
      { store := store, view := view, wroteStore := false, toast := none } := by
  have hfilter : (view.filter fun n => !n.read) = [] :=
    List.length_eq_zero.mp h
  have hids : unreadIdsOf view = [] := by
    unfold unreadIdsOf
    rw [hfilter]
    rfl
  unfold markAllAsRead
  rw [hids]
  rfl

/-- Closed instance of `markAllAsRead_noop_when_no_unread`: a view holding
one already-read notification yields the untouched result. -/
theorem markAllAsRead_noop_witness :
    markAllAsRead 1 [readNotif] [readNotif, foreignNotif] =
      { store := [readNotif, foreignNotif], view := [readNotif]
        wroteStore := false, toast := none } :=
  markAllAsRead_noop_when_no_unread 1 [readNotif] [readNotif, foreignNotif]
    (by decide)

/-- C10: both schedule mutations carry `.eq('id', sid)` and
`.eq('user_id', uid)` in the request itself, so a row owned by a different
identity is not matched: it survives both the edit and the delete
unchanged, with no reliance on server-side RLS. -/
theorem scheduleMutations_foreign_row_untouched (uid sid : Nat)
    (f : ScheduleFields) (store : List ScheduleRow) (r : ScheduleRow)
    (hr : r ∈ store) (hown : r.user_id ≠ uid) :
    (r.id == sid && r.user_id == uid) = false ∧
    r ∈ handleEditSchedule uid sid f store ∧
    r ∈ handleDeleteSchedule uid sid store := by
  have hcond : (r.id == sid && r.user_id == uid) = false := by
    simp [hown]
  refine ⟨hcond, ?_, ?_⟩
  · unfold handleEditSchedule
    have hfix : (if r.id == sid && r.user_id == uid then
        { r with course := f.course, time := f.time, location := f.location
                 instructor := f.instructor, type := f.type
                 day_of_week := f.day_of_week } else r) = r := by
      rw [hcond]
      rfl
    have hmem := List.mem_map_of_mem (fun r : ScheduleRow =>
      if r.id == sid && r.user_id == uid then
        { r with course := f.course, time := f.time, location := f.location
                 instructor := f.instructor, type := f.type
                 day_of_week := f.day_of_week } else r) hr
    simpa only [hfix] using hmem
  · unfold handleDeleteSchedule
    exact List.mem_filter.mpr ⟨hr, by rw [hcond]; rfl⟩

/-- Closed instance of `scheduleMutations_foreign_row_untouched`: caller 1
editing and deleting schedule 3, which caller 2 owns, leaves that row in
place. -/
theorem scheduleMutations_foreign_row_untouched_witness :
    foreignSched ∈ handleEditSchedule 1 3
      { course := "X", time := "11:00", location := "L", instructor := "I"
        type := "Lab", day_of_week := "friday" } [schedA, foreignSched] ∧
    foreignSched ∈ handleDeleteSchedule 1 3 [schedA, foreignSched] :=
  ⟨(scheduleMutations_foreign_row_untouched 1 3 _ [schedA, foreignSched]
      foreignSched (by decide) (by decide)).2.1,
   (scheduleMutations_foreign_row_untouched 1 3
      { course := "X", time := "11:00", location := "L", instructor := "I"
        type := "Lab", day_of_week := "friday" } [schedA, foreignSched]
      foreignSched (by decide) (by decide)).2.2⟩

/-- C2: evaluation of the repository's policies at the claim's scenario.
The claim-side predicate grants the CS-Y2 student read access to the CS-Y2
timetable row, but the sole RLS policy on `public.timetable`
(`auth.uid() = lecturer_id`) denies it, so the row never leaves the store
for that caller; likewise a broadcast announcement (`target_class` null) is
invisible to the student under the `public.updates` policy, so the
student-facing `fetchUpdates` yields nothing. -/
theorem classScopedRead_denied_by_rls :
    claimTimetableRead studentCS ttCS = true ∧
    studentCS.department = some ttCS.class_col ∧
    studentCS.id ≠ ttCS.lecturer_id ∧
    timetablePolicy studentCS.id ttCS = false ∧
    visibleTimetable studentCS.id [ttCS] = [] ∧
    updatesPolicy studentCS.id updAll = false ∧
    updatesClientFilter "CS-Y2" updAll = true ∧
    fetchUpdates studentCS.id "CS-Y2" [updAll] = [] := by
  decide

/-- C6: evaluation of the notifications change feed at the claim's
scenario.  The channel subscription carries no row filter and the handler
performs no ownership check, so inserting a notification owned by caller 2
while caller 1 is subscribed delivers one event (not zero) and the foreign
row - for which the read policy does not hold - lands in caller 1's
displayed list. -/
theorem changeFeed_delivers_foreign_insert :
    notificationsChannelMatches foreignNotif = true ∧
    deliveredInsertEvents [foreignNotif] = [foreignNotif] ∧
    (deliveredInsertEvents [foreignNotif]).length = 1 ∧
    notificationsSelectPolicy 1 foreignNotif = false ∧
    onInsertPayload [] foreignNotif = [foreignNotif] := by
  decide

/-- C7: the `read` flag is monotonic.  A freshly inserted row starts with
`read = false` (the column default), and each reachable operation carries
every existing row to a row with the same id whose `read` flag is either
unchanged or newly raised from `false` to `true`; nothing resets it. -/
theorem notif_read_monotonic :
    (∀ f : NotificationInsert, (insertedRow f).read = false) ∧
    ∀ (op : NotifOp) (s : List NotificationRow) (r : NotificationRow),
      r ∈ s → ∃ r', r' ∈ notifStep op s ∧ r'.id = r.id ∧
        (r'.read = r.read ∨ (r.read = false ∧ r'.read = true)) := by
  constructor
  · intro f
    rfl
  · intro op s r hr
    cases op with
    | insertOp f =>
        exact ⟨r, List.mem_cons_of_mem _ hr, rfl, Or.inl rfl⟩
    | markReadOp uid nid =>
        refine ⟨_, List.mem_map_of_mem
          (fun r : NotificationRow =>
            if r.id == nid && notificationsUpdatePolicy uid r then
              { r with read := true } else r) hr, ?_, ?_⟩
        · by_cases h : (r.id == nid && notificationsUpdatePolicy uid r) = true
          · rw [if_pos h]
          · rw [if_neg h]
        · by_cases h : (r.id == nid && notificationsUpdatePolicy uid r) = true
          · rw [if_pos h]
            cases hread : r.read
            · exact Or.inr ⟨rfl, rfl⟩
            · exact Or.inl rfl
          · rw [if_neg h]
            exact Or.inl rfl
    | markAllReadOp uid ids =>
        refine ⟨_, List.mem_map_of_mem
          (fun r : NotificationRow =>
            if ids.contains r.id && notificationsUpdatePolicy uid r then
              { r with read := true } else r) hr, ?_, ?_⟩
        · by_cases h : (ids.contains r.id && notificationsUpdatePolicy uid r) = true
          · rw [if_pos h]
          · rw [if_neg h]
        · by_cases h : (ids.contains r.id && notificationsUpdatePolicy uid r) = true
          · rw [if_pos h]
            cases hread : r.read
            · exact Or.inr ⟨rfl, rfl⟩
            · exact Or.inl rfl
          · rw [if_neg h]
            exact Or.inl rfl

/-- Closed instance of `notif_read_monotonic`: marking id 5 as caller 2
carries the unread foreign row to a row of the same id whose flag only
rose. -/
theorem notif_read_monotonic_witness :
    ∃ r', r' ∈ notifStep (NotifOp.markReadOp 2 5) [foreignNotif] ∧
      r'.id = foreignNotif.id ∧
      (r'.read = foreignNotif.read ∨
        (foreignNotif.read = false ∧ r'.read = true)) :=
  notif_read_monotonic.2 (NotifOp.markReadOp 2 5) [foreignNotif]
    foreignNotif (by decide)

/-- C1 counterexample: with 21 notifications owned by caller 1, the oldest
row is in the store and the read policy holds for it, yet
`fetchNotifications` omits it - `.limit(20)` truncates the list, so the
list operation is not complete with respect to `authorize`. -/
theorem list_notifications_omit_authorized_row :
    cxOldNotif ∈ cxNotifStore ∧
    notificationsSelectPolicy 1 cxOldNotif = true ∧
    cxOldNotif ∉ fetchNotifications 1 cxNotifStore := by
  decide

/-- C1 amended: for schedules, feedback and appointments the list
operation returns a row exactly when the caller owns it (the RLS policy
and the client filter agree on `user_id = caller`); for notifications only
the sound direction holds - every returned row is an owned store row - the
returned list being truncated to the 20 most recent. -/
theorem list_ownerScoped (uid : Nat) (ss : List ScheduleRow)
    (fs : List FeedbackRow) (aps : List AppointmentRow)
    (ns : List NotificationRow) :
    (∀ r, r ∈ fetchSchedules uid ss ↔ r ∈ ss ∧ r.user_id = uid) ∧
    (∀ r, r ∈ fetchFeedback uid fs ↔ r ∈ fs ∧ r.user_id = uid) ∧
    (∀ r, r ∈ appointmentsVisible uid aps ↔ r ∈ aps ∧ r.user_id = uid) ∧
    (∀ r, r ∈ fetchNotifications uid ns → r ∈ ns ∧ r.user_id = uid) := by
  refine ⟨?_, ?_, ?_, ?_⟩
  · intro r
    unfold fetchSchedules
    rw [List.mem_insertionSort, List.mem_filter, List.mem_filter]
    constructor
    · rintro ⟨⟨hmem, _⟩, hcl⟩
      exact ⟨hmem, by simpa using hcl⟩
    · rintro ⟨hmem, huid⟩
      exact ⟨⟨hmem, by simp [schedulesSelectPolicy, huid]⟩, by simp [huid]⟩
  · intro r
    unfold fetchFeedback
    rw [List.mem_insertionSort, List.mem_filter, List.mem_filter]
    constructor
    · rintro ⟨⟨hmem, _⟩, hcl⟩
      exact ⟨hmem, by simpa using hcl⟩
    · rintro ⟨hmem, huid⟩
      exact ⟨⟨hmem, by simp [feedbackSelectPolicy, huid]⟩, by simp [huid]⟩
  · intro r
    unfold appointmentsVisible
    rw [List.mem_filter]
    constructor
    · rintro ⟨hmem, hpol⟩
      refine ⟨hmem, ?_⟩
      have := of_decide_eq_true (by simpa [appointmentsSelectPolicy] using hpol)
      omega
    · rintro ⟨hmem, huid⟩
      exact ⟨hmem, by simp [appointmentsSelectPolicy, huid]⟩
  · intro r hr
    unfold fetchNotifications at hr
    have hsorted := List.take_subset 20 _ hr
    rw [List.mem_insertionSort, List.mem_filter, List.mem_filter] at hsorted
    exact ⟨hsorted.1.1, by simpa using hsorted.2⟩

/-- Closed instance of `list_ownerScoped`: the newest row of the 21-row
store is returned by `fetchNotifications`, hence is an owned store row. -/
theorem list_ownerScoped_witness :
    cxNewNotif ∈ cxNotifStore ∧ cxNewNotif.user_id = 1 :=
  (list_ownerScoped 1 [] [] [] cxNotifStore).2.2.2 cxNewNotif (by decide)

/-- C3 counterexample: with 21 unread notifications owned by caller 1, the
displayed list is capped at the 20 most recent, `markAllAsRead` only
UPDATEs those ids, and the store-wide unread count afterwards is 1, not
0. -/
theorem markAllAsRead_unreadCount_counterexample :
    unreadCountStore 1
      (markAllAsRead 1 (fetchNotifications 1 cxNotifStore) cxNotifStore).store
        = 1 ∧
    unreadCountStore 1
      (markAllAsRead 1 (fetchNotifications 1 cxNotifStore) cxNotifStore).store
        ≠ 0 := by
  decide

/-- C3 amended: after `markAllAsRead`, the displayed list holds no unread
notification (the badge count the component derives is 0), and every store
row owned by the caller whose id was among the displayed unread ids has
`read = true`; rows beyond the 20-row fetch window are not touched, so the
store-wide unread count need not be 0. -/
theorem markAllAsRead_clears_view (uid : Nat)
    (view store : List NotificationRow) :
    unreadCountView (markAllAsRead uid view store).view = 0 ∧
    ∀ r ∈ (markAllAsRead uid view store).store,
      r.user_id = uid → r.id ∈ unreadIdsOf view → r.read = true := by
  simp only [markAllAsRead]
  by_cases h : (unreadIdsOf view).isEmpty = true
  · rw [if_pos h]
    have hids : unreadIdsOf view = [] := List.isEmpty_iff.mp h
    constructor
    · have hlen := congrArg List.length hids
      unfold unreadIdsOf at hlen
      rw [List.length_map] at hlen
      unfold unreadCountView
      exact hlen
    · intro r _ _ hid
      rw [hids] at hid
      exact absurd hid (List.not_mem_nil _)
  · rw [if_neg h]
    constructor
    · unfold unreadCountView
      rw [List.filter_map]
      have : ((fun n : NotificationRow => !n.read) ∘
          fun n : NotificationRow => { n with read := true }) = fun _ => false := by
        funext n
        rfl
      rw [this, List.filter_false]
      rfl
    · intro r hr hu hid
      rcases List.mem_map.mp hr with ⟨r0, hr0, heq⟩
      by_cases hc : ((unreadIdsOf view).contains r0.id &&
          notificationsUpdatePolicy uid r0) = true
      · rw [if_pos hc] at heq
        rw [← heq]
      · rw [if_neg hc] at heq
        subst heq
        exfalso
        apply hc
        have h1 : (unreadIdsOf view).contains r0.id = true := by
          simpa using hid
        have h2 : notificationsUpdatePolicy uid r0 = true := by
          simp [notificationsUpdatePolicy, hu]
        rw [h1, h2]
        rfl

/-- Closed instance of `markAllAsRead_clears_view`: one displayed unread
notification owned by caller 1, whose store row comes out read. -/
theorem markAllAsRead_clears_view_witness :
    unreadCountView (markAllAsRead 1 [ownNotif] [ownNotif]).view = 0 ∧
    ({ ownNotif with read := true } : NotificationRow).read = true :=
  ⟨(markAllAsRead_clears_view 1 [ownNotif] [ownNotif]).1,
   (markAllAsRead_clears_view 1 [ownNotif] [ownNotif]).2
     { ownNotif with read := true } (by decide) (by decide) (by decide)⟩

/-- Filtering commutes with ordered insertion when the inserted element
satisfies the predicate and is related to every element of the list that
satisfies it: the element lands in front of all of them. -/
theorem filter_orderedInsert_of_pos {α : Type} (r : α → α → Prop)
    [DecidableRel r] (p : α → Bool) (x : α) (l : List α) (hx : p x = true)
    (hl : ∀ b ∈ l, p b = true → r x b) :
    (List.orderedInsert r x l).filter p = x :: l.filter p := by
  induction l with
  | nil => simp [hx]
  | cons b t ih =>
    by_cases hrb : r x b
    · rw [List.orderedInsert, if_pos hrb]
      rw [List.filter_cons_of_pos hx]
    · have hpb : ¬p b = true := by
        intro hpb
        exact hrb (hl b (List.mem_cons_self b t) hpb)
      rw [List.orderedInsert, if_neg hrb]
      rw [List.filter_cons_of_neg hpb, List.filter_cons_of_neg hpb]
      exact ih fun c hc hpc => hl c (List.mem_cons_of_mem b hc) hpc

/-- Filtering ignores the ordered insertion of an element that does not
satisfy the predicate. -/
theorem filter_orderedInsert_of_neg {α : Type} (r : α → α → Prop)
    [DecidableRel r] (p : α → Bool) (x : α) (l : List α) (hx : ¬p x = true) :
    (List.orderedInsert r x l).filter p = l.filter p := by
  rw [List.orderedInsert_eq_take_drop, List.filter_append,
    List.filter_cons_of_neg hx, ← List.filter_append,
    List.takeWhile_append_dropWhile]

/-- Stability of insertion sort, in filter form: the sort preserves the
relative order of any family of elements that are pairwise related both
ways (i.e. tied under the sort key). -/
theorem filter_insertionSort_of_ties {α : Type} (r : α → α → Prop)
    [DecidableRel r] (p : α → Bool) (l : List α)
    (hp : ∀ a b, p a = true → p b = true → r a b) :
    (List.insertionSort r l).filter p = l.filter p := by
  induction l with
  | nil => rfl
  | cons x t ih =>
    show (List.orderedInsert r x (List.insertionSort r t)).filter p = _
    by_cases hx : p x = true
    · rw [filter_orderedInsert_of_pos r p x _ hx
        fun b _ hb => hp x b hx hb, ih, List.filter_cons_of_pos hx]
    · rw [filter_orderedInsert_of_neg r p x _ hx, ih,
        List.filter_cons_of_neg hx]

/-- C8: the Schedule Merge View is sorted by the display time string; for
any display time and source, the entries of that source carrying that time
appear in exactly their order in the day-filtered input (ties are broken
by insertion order within the same source); and the merge is a pure
function of the day and the two input lists, so re-running it on unchanged
inputs yields an identical sequence. -/
theorem getDisplayData_sorted_stable (day : String) (ss : List ScheduleRow)
    (ts : List TimetableRow) :
    List.Sorted timeLE (getDisplayData day ss ts) ∧
    (∀ (k : String) (src : SourceTag),
      (getDisplayData day ss ts).filter
          (fun e => e.displayTime == k && e.tag == src) =
        ((currentPersonalSchedules day ss).map toPersonalItem ++
          (currentTimetable day ts).map toLecturerItem).filter
            (fun e => e.displayTime == k && e.tag == src)) ∧
    (∀ (day2 : String) (ss2 : List ScheduleRow) (ts2 : List TimetableRow),
      day = day2 → ss = ss2 → ts = ts2 →
        getDisplayData day ss ts = getDisplayData day2 ss2 ts2) := by
  refine ⟨List.sorted_insertionSort timeLE _, ?_, ?_⟩
  · intro k src
    apply filter_insertionSort_of_ties
    intro a b ha hb
    have ha' : a.displayTime = k := by
      have := (Bool.and_elim_left ha)
      exact eq_of_beq this
    have hb' : b.displayTime = k := by
      have := (Bool.and_elim_left hb)
      exact eq_of_beq this
    show a.displayTime ≤ b.displayTime
    rw [ha', hb']
  · rintro day2 ss2 ts2 rfl rfl rfl
    rfl

/-- Closed instance of `getDisplayData_sorted_stable`: the merge of one
personal row and one timetable row on monday is reproducible. -/
theorem getDisplayData_sorted_stable_witness :
    getDisplayData "monday" [schedA] [ttCS] =
      getDisplayData "monday" [schedA] [ttCS] :=
  (getDisplayData_sorted_stable "monday" [schedA] [ttCS]).2.2
    "monday" [schedA] [ttCS] rfl rfl rfl

end CampusFlow
